import Mathlib

/-!
Verification of the attendance management system (Flask/SQLite app).

Shallow embedding of `src/models.py` and `src/config.py`:
* dates are modelled as integers (day numbers), with day `d` falling on
  weekday `d % 7` and the convention Monday = 0 (matching Python's
  `date.weekday()`), so `d % 7 < 5` means Monday..Friday;
* timestamps are integers measured in hours (the only arithmetic the code
  performs on timestamps is `now + timedelta(hours=24)`);
* each SQLite table is a list of row structures, inserts append, and the
  `UNIQUE` constraints of `db_init.py` become explicit hypotheses or are
  reflected in the branching of the operation (for `students`, where
  `sqlite3.IntegrityError` is caught);
* every operation returns its result together with the post-state of the
  table it touches.
-/

namespace AttendanceSys

/-- Configuration constants from `src/config.py`.  The spec calls these the
"externally configurable" surface, so operations take a `Config` argument;
the fields a given Python function does not read are simply ignored by its
embedding, exactly as in the source. -/
structure Config where
  attendanceThreshold : Int
  attendancePeriodDays : Int
  sessionLifetime : Int
deriving Repr, DecidableEq

/-- The literal values in `src/config.py`:
`ATTENDANCE_THRESHOLD = 75`, `ATTENDANCE_PERIOD_DAYS = 30`,
`SESSION_LIFETIME = 24`. -/
def defaultConfig : Config :=
  { attendanceThreshold := 75, attendancePeriodDays := 30, sessionLifetime := 24 }

/-- Python's `date.weekday() < 5`: Monday = 0 .. Sunday = 6, so this is
true exactly on Monday..Friday. -/
def isWeekday (d : Int) : Bool := d.emod 7 < 5

/-- A row of the `attendance` table
(`student_id, date, logged_in, login_time`); the `id` column only serves
to address the row being updated and is represented by the row's position. -/
structure AttendanceRow where
  student_id : Nat
  date : Int
  logged_in : Bool
  login_time : Option Int
deriving Repr, DecidableEq

/-- A row of the `students` table.  The `password` field holds the
SHA-256 hex digest computed by the caller; its value is irrelevant to the
row-uniqueness behaviour verified here. -/
structure StudentRow where
  username : String
  password : String
  name : String
  email : String
deriving Repr, DecidableEq

/-- A row of the `sessions` table. -/
structure SessionRow where
  student_id : Nat
  session_token : String
  created_at : Int
  expires_at : Int
deriving Repr, DecidableEq

/-- The selection `WHERE student_id = ? AND date = ?`. -/
def rowMatches (sid : Nat) (d : Int) (r : AttendanceRow) : Bool :=
  r.student_id == sid && r.date == d

/-- The statement `UPDATE attendance SET logged_in = 1, login_time = ? WHERE id = ?`
applied to the row found by `fetchone` (the first row matching
`student_id = ? AND date = ?`): replace the first matching row. -/
def updateFirst (sid : Nat) (d : Int) (now : Int) :
    List AttendanceRow → List AttendanceRow
  | [] => []
  | r :: rs =>
    if rowMatches sid d r then
      { r with logged_in := true, login_time := some now } :: rs
    else
      r :: updateFirst sid d now rs

/-- Embeds `Attendance.mark_attendance(student_id)` from `src/models.py`
(lines 117-147), with `today`/`now` made explicit inputs.  Returns the new
state of the `attendance` table (the Python function returns `True`
unconditionally). -/
def markAttendance (sid : Nat) (today now : Int)
    (ledger : List AttendanceRow) : List AttendanceRow :=
  if (ledger.find? (rowMatches sid today)).isSome then
    updateFirst sid today now ledger
  else
    ledger ++ [⟨sid, today, true, some now⟩]

/-- Repeated `mark_attendance` calls for the same day, one per timestamp in
`ts`, left to right. -/
def markMany (sid : Nat) (today : Int) (ts : List Int)
    (ledger : List AttendanceRow) : List AttendanceRow :=
  ts.foldl (fun l t => markAttendance sid today t l) ledger

/-- The predicate `date BETWEEN ? AND ?` for the window `[start, end]`. -/
def inWindow (start stop d : Int) : Bool := start ≤ d && d ≤ stop

/-- Rows the percentage/history queries select:
`student_id = ? AND date BETWEEN ? AND ?`. -/
def selWindow (sid : Nat) (start stop : Int) (r : AttendanceRow) : Bool :=
  r.student_id == sid && inWindow start stop r.date

/-- The dates `start_date, start_date+1, ..., start_date+(n-1)` traversed by
the backfill `while` loop (`n = days`; for `days ≤ 0` the loop body never
runs because `start_date > end_date`). -/
def windowDates (start : Int) (n : Int) : List Int :=
  (List.range n.toNat).map (fun (i : Nat) => start + (i : Int))

/-- The rows built by the backfill loop of `get_attendance_percentage`
(lines 179-192): one `(student_id, current_date, 0, None)` row for each
non-weekend date in the window.  The loop's `current_date <= today` guard
is identically true because `end_date` *is* today. -/
def missingDays (sid : Nat) (start n : Int) : List AttendanceRow :=
  ((windowDates start n).filter isWeekday).map (fun d => ⟨sid, d, false, none⟩)

/-- Round a rational to 2 decimal places, modelling Python's
`round(percentage, 2)`. -/
def round2 (q : ℚ) : ℚ := (round (q * 100) : ℤ) / 100

/-- Lines 154-156 of `src/models.py`: `if days == 30: days = ATTENDANCE_PERIOD_DAYS`
— the config value silently replaces a (possibly explicit) argument of 30. -/
def effDays (cfg : Config) (days : Int) : Int :=
  if days == 30 then cfg.attendancePeriodDays else days

/-- The dictionary returned by `get_attendance_percentage`. -/
structure PercentageResult where
  percentage : ℚ
  present_days : Nat
  total_days : Nat
  start_date : Int
  end_date : Int
deriving Repr, DecidableEq

/-- Embeds `Attendance.get_attendance_percentage(student_id, days=30)` from
`src/models.py` (lines 150-219), with `today` explicit.  Returns the result
dictionary together with the post-state of the `attendance` table.
Mirrors the source step by step: the `days == 30` substitution by
`ATTENDANCE_PERIOD_DAYS`, the window `[today-(days-1), today]`, the
zero-record backfill of weekday absences, then the present count and the
rounded ratio. -/
def getAttendancePercentage (cfg : Config) (sid : Nat) (days : Int)
    (today : Int) (ledger : List AttendanceRow) :
    PercentageResult × List AttendanceRow :=
  let days := effDays cfg days
  let end_date := today
  let start_date := end_date - (days - 1)
  let record_count := (ledger.filter (selWindow sid start_date end_date)).length
  let backfilled :=
    if record_count == 0 then missingDays sid start_date days else []
  let ledger' := ledger ++ backfilled
  let record_count' := if record_count == 0 then backfilled.length else record_count
  let present_days :=
    (ledger'.filter (fun r => selWindow sid start_date end_date r && r.logged_in)).length
  let total_days := record_count'
  let percentage : ℚ :=
    if total_days > 0 then round2 ((present_days : ℚ) / (total_days : ℚ) * 100) else 0
  (⟨percentage, present_days, total_days, start_date, end_date⟩, ledger')

/-- One entry of the list returned by `get_attendance_history`
(`date, logged_in, login_time`). -/
structure HistoryEntry where
  date : Int
  logged_in : Bool
  login_time : Option Int
deriving Repr, DecidableEq

/-- Insert an entry into a list kept sorted by date descending. -/
def insertDesc (e : HistoryEntry) : List HistoryEntry → List HistoryEntry
  | [] => [e]
  | x :: xs => if x.date ≤ e.date then e :: x :: xs else x :: insertDesc e xs

/-- Sorting for `ORDER BY date DESC`. -/
def sortDesc (l : List HistoryEntry) : List HistoryEntry :=
  l.foldr insertDesc []

/-- Embeds `Attendance.get_attendance_history(student_id, days=30)` from
`src/models.py` (lines 221-253), `today` explicit.  No config substitution
happens here; the window is `[today-(days-1), today]`; if the selection is
empty a single placeholder `{date: today, logged_in: 0, login_time: None}`
is returned. -/
def getAttendanceHistory (sid : Nat) (days : Int) (today : Int)
    (ledger : List AttendanceRow) : List HistoryEntry :=
  let end_date := today
  let start_date := end_date - (days - 1)
  let records :=
    (ledger.filter (selWindow sid start_date end_date)).map
      (fun r => HistoryEntry.mk r.date r.logged_in r.login_time)
  if records.isEmpty then
    [⟨end_date, false, none⟩]
  else
    sortDesc records

/-- Embeds `Student.create(username, password, name, email)` from `src/models.py`
(lines 96-112): the `INSERT` raises `sqlite3.IntegrityError` exactly when
the `UNIQUE` constraint on `username` or on `email` is violated, which the
function catches and turns into `False` with no row written; otherwise the
row is appended and it returns `True`.  `hashed_password` is the digest the
Python code computes before inserting. -/
def studentCreate (store : List StudentRow) (username hashed_password name email : String) :
    Bool × List StudentRow :=
  if store.any (fun r => r.username == username || r.email == email) then
    (false, store)
  else
    (true, store ++ [⟨username, hashed_password, name, email⟩])

/-- Embeds `Session.create(student_id)` from `src/models.py` (lines 258-271):
`expires_at = datetime.datetime.now() + datetime.timedelta(hours=24)` —
the literal 24 is hard-coded; the function never reads
`config.SESSION_LIFETIME` (the `Config` argument is ignored, exactly as in
the source).  The random token is an explicit input.  Returns the token and
the new `sessions` table. -/
def sessionCreate (_cfg : Config) (sid : Nat) (token : String) (now : Int)
    (sessions : List SessionRow) : String × List SessionRow :=
  (token, sessions ++ [⟨sid, token, now, now + 24⟩])

/-- Embeds `Session.validate(token)` from `src/models.py` (lines 273-285):
`SELECT student_id FROM sessions WHERE session_token = ? AND expires_at > ?`
then `fetchone` — the first row matching both conditions; a pure read, the
table is returned unchanged. -/
def sessionValidate (sessions : List SessionRow) (token : String) (now : Int) :
    Option Nat × List SessionRow :=
  ((sessions.find? (fun r => r.session_token == token && now < r.expires_at)).map
      (fun r => r.student_id),
    sessions)

/-- The ledger-touching operations of the Attendance class, for the
temporal claim: each constructor carries the inputs the Python method
takes (with time made explicit). -/
inductive LedgerOp where
  | mark (sid : Nat) (today now : Int)
  | percentage (cfg : Config) (sid : Nat) (days today : Int)
  | history (sid : Nat) (days today : Int)
deriving Repr

/-- Apply one operation to the `attendance` table and return the new
table (`history` performs no writes). -/
def applyOp (op : LedgerOp) (ledger : List AttendanceRow) : List AttendanceRow :=
  match op with
  | .mark sid today now => markAttendance sid today now ledger
  | .percentage cfg sid days today => (getAttendancePercentage cfg sid days today ledger).2
  | .history _ _ _ => ledger

/-- "The record for (user, day) is marked present": some row for that key
has `logged_in = 1` (under the `UNIQUE (student_id, date)` constraint there
is at most one such row). -/
def isPresent (ledger : List AttendanceRow) (sid : Nat) (d : Int) : Bool :=
  ledger.any (fun r => rowMatches sid d r && r.logged_in)

end AttendanceSys


namespace AttendanceSys

/-! ### Helper lemmas about the backfill rows -/

theorem mem_windowDates_iff {start n d : Int} :
    d ∈ windowDates start n ↔ start ≤ d ∧ d ≤ start + n - 1 := by
  simp only [windowDates, List.mem_map, List.mem_range]
  constructor
  · rintro ⟨i, hi, heq⟩
    omega
  · intro h
    exact ⟨(d - start).toNat, by omega, by omega⟩

theorem windowDates_nodup (start n : Int) : (windowDates start n).Nodup := by
  unfold windowDates
  refine List.Nodup.map ?_ (List.nodup_range _)
  intro a b h
  simp only at h
  omega

theorem mem_missingDays {sid : Nat} {start n : Int} {r : AttendanceRow} :
    r ∈ missingDays sid start n ↔
      ∃ d, start ≤ d ∧ d ≤ start + n - 1 ∧ isWeekday d = true ∧
        r = ⟨sid, d, false, none⟩ := by
  simp only [missingDays, List.mem_map, List.mem_filter, mem_windowDates_iff]
  constructor
  · rintro ⟨d, ⟨⟨h1, h2⟩, hw⟩, rfl⟩
    exact ⟨d, h1, h2, hw, rfl⟩
  · rintro ⟨d, h1, h2, hw, rfl⟩
    exact ⟨d, ⟨⟨h1, h2⟩, hw⟩, rfl⟩

theorem missingDays_dates_nodup (sid : Nat) (start n : Int) :
    ((missingDays sid start n).map AttendanceRow.date).Nodup := by
  have key : ∀ l : List Int,
      (l.map (fun d => (⟨sid, d, false, none⟩ : AttendanceRow))).map AttendanceRow.date = l := by
    intro l
    induction l with
    | nil => rfl
    | cons a l ih => simp [ih]
  rw [missingDays, key]
  exact (windowDates_nodup start n).filter _

theorem missingDays_sel {sid : Nat} {start n : Int} {r : AttendanceRow}
    (h : r ∈ missingDays sid start n) :
    selWindow sid start (start + n - 1) r = true ∧ r.logged_in = false ∧
      r.login_time = none ∧ isWeekday r.date = true := by
  rcases mem_missingDays.mp h with ⟨d, h1, h2, hw, rfl⟩
  refine ⟨?_, rfl, rfl, hw⟩
  simp [selWindow, inWindow, h1, h2]

end AttendanceSys

namespace AttendanceSys

/-! ### Helper lemmas about marking attendance -/

theorem filter_updateFirst (sid : Nat) (d now : Int) :
    ∀ l : List AttendanceRow, l.countP (rowMatches sid d) = 1 →
      (updateFirst sid d now l).filter (rowMatches sid d) =
        [⟨sid, d, true, some now⟩]
  | [], h => by simp at h
  | r :: rs, h => by
    by_cases hm : rowMatches sid d r = true
    · obtain ⟨hs, hd⟩ : r.student_id = sid ∧ r.date = d := by
        simpa [rowMatches] using hm
      have hcount : rs.countP (rowMatches sid d) = 0 := by
        rw [List.countP_cons_of_pos _ _ hm] at h
        omega
      have hfil : rs.filter (rowMatches sid d) = [] := by
        rw [← List.length_eq_zero, ← List.countP_eq_length_filter]
        exact hcount
      have hm' : rowMatches sid d
          { r with logged_in := true, login_time := some now } = true := by
        simp [rowMatches, hs, hd]
      simp only [updateFirst]
      rw [if_pos hm]
      rw [List.filter_cons_of_pos hm', hfil]
      cases r
      simp_all
    · have hcount : rs.countP (rowMatches sid d) = 1 := by
        rw [List.countP_cons_of_neg _ _ hm] at h
        exact h
      simp only [updateFirst]
      rw [if_neg hm, List.filter_cons_of_neg hm]
      exact filter_updateFirst sid d now rs hcount

theorem filter_markAttendance (sid : Nat) (d now : Int) (l : List AttendanceRow)
    (h : l.countP (rowMatches sid d) ≤ 1) :
    (markAttendance sid d now l).filter (rowMatches sid d) =
      [⟨sid, d, true, some now⟩] := by
  unfold markAttendance
  by_cases hf : (l.find? (rowMatches sid d)).isSome
  · rw [if_pos hf]
    apply filter_updateFirst
    obtain ⟨r, hr⟩ := Option.isSome_iff_exists.mp hf
    have hmem := List.mem_of_find?_eq_some hr
    have hpr : rowMatches sid d r = true := List.find?_some hr
    have hpos : 0 < l.countP (rowMatches sid d) :=
      List.countP_pos_iff.mpr ⟨r, hmem, hpr⟩
    omega
  · rw [if_neg hf]
    rw [List.filter_append]
    have hnone : l.find? (rowMatches sid d) = none := by
      cases hx : l.find? (rowMatches sid d) with
      | none => rfl
      | some r => rw [hx] at hf; simp at hf
    have hnil : l.filter (rowMatches sid d) = [] := by
      rw [List.filter_eq_nil_iff]
      intro a ha
      simpa using List.find?_eq_none.mp hnone a ha
    rw [hnil]
    simp [rowMatches]

theorem markMany_filter (sid : Nat) (d : Int) :
    ∀ (ts : List Int) (l : List AttendanceRow) (t0 : Int),
      l.filter (rowMatches sid d) = [⟨sid, d, true, some t0⟩] →
      (markMany sid d ts l).filter (rowMatches sid d) =
        [⟨sid, d, true, some (ts.getLastD t0)⟩]
  | [], l, t0, h => by simpa [markMany] using h
  | t :: ts, l, t0, h => by
    have hc : l.countP (rowMatches sid d) ≤ 1 := by
      rw [List.countP_eq_length_filter, h]
      simp
    have hstep := filter_markAttendance sid d t l hc
    have hrec := markMany_filter sid d ts (markAttendance sid d t l) t hstep
    rw [List.getLastD_cons]
    simpa [markMany] using hrec

end AttendanceSys

namespace AttendanceSys

/-! ### Present-status preservation -/

theorem isPresent_updateFirst (sid' : Nat) (d' now : Int) (sid : Nat) (d : Int) :
    ∀ l : List AttendanceRow, isPresent l sid d = true →
      isPresent (updateFirst sid' d' now l) sid d = true
  | [], h => h
  | r :: rs, h => by
    simp only [isPresent, List.any_cons, Bool.or_eq_true] at h
    by_cases hm : rowMatches sid' d' r = true
    · simp only [updateFirst]
      rw [if_pos hm]
      simp only [isPresent, List.any_cons, Bool.or_eq_true]
      rcases h with h | h
      · left
        simp only [rowMatches, Bool.and_eq_true] at h ⊢
        exact ⟨⟨h.1.1, h.1.2⟩, trivial⟩
      · right
        exact h
    · simp only [updateFirst]
      rw [if_neg hm]
      simp only [isPresent, List.any_cons, Bool.or_eq_true]
      rcases h with h | h
      · left
        exact h
      · right
        exact isPresent_updateFirst sid' d' now sid d rs h

theorem isPresent_append_left {l b : List AttendanceRow} {sid : Nat} {d : Int}
    (h : isPresent l sid d = true) : isPresent (l ++ b) sid d = true := by
  simp only [isPresent, List.any_append, Bool.or_eq_true]
  exact Or.inl h

theorem isPresent_markAttendance (sid' : Nat) (today now : Int) (sid : Nat) (d : Int)
    (l : List AttendanceRow) (h : isPresent l sid d = true) :
    isPresent (markAttendance sid' today now l) sid d = true := by
  unfold markAttendance
  by_cases hf : (l.find? (rowMatches sid' today)).isSome
  · rw [if_pos hf]
    exact isPresent_updateFirst sid' today now sid d l h
  · rw [if_neg hf]
    exact isPresent_append_left h

theorem getAttendancePercentage_ledger (cfg : Config) (sid : Nat) (days today : Int)
    (ledger : List AttendanceRow) :
    ∃ extra, (getAttendancePercentage cfg sid days today ledger).2 = ledger ++ extra := by
  exact ⟨_, rfl⟩

/-! ### Sorting lemmas -/

theorem mem_insertDesc {e x : HistoryEntry} :
    ∀ {l : List HistoryEntry}, x ∈ insertDesc e l ↔ x = e ∨ x ∈ l
  | [] => by simp [insertDesc]
  | a :: l => by
    by_cases h : a.date ≤ e.date
    · simp [insertDesc, h]
    · simp only [insertDesc, if_neg h, List.mem_cons, mem_insertDesc]
      tauto

theorem insertDesc_perm (e : HistoryEntry) :
    ∀ l : List HistoryEntry, List.Perm (insertDesc e l) (e :: l)
  | [] => List.Perm.refl _
  | a :: l => by
    by_cases h : a.date ≤ e.date
    · simp only [insertDesc, if_pos h]
      exact List.Perm.refl _
    · simp only [insertDesc, if_neg h]
      exact ((insertDesc_perm e l).cons a).trans (List.Perm.swap e a l)

theorem sortDesc_perm : ∀ l : List HistoryEntry, List.Perm (sortDesc l) l
  | [] => List.Perm.refl _
  | a :: l => by
    have : sortDesc (a :: l) = insertDesc a (sortDesc l) := rfl
    rw [this]
    exact (insertDesc_perm a (sortDesc l)).trans ((sortDesc_perm l).cons a)

theorem insertDesc_sorted (e : HistoryEntry) :
    ∀ l : List HistoryEntry, l.Pairwise (fun a b => b.date ≤ a.date) →
      (insertDesc e l).Pairwise (fun a b => b.date ≤ a.date)
  | [], _ => by simp [insertDesc]
  | a :: l, h => by
    rw [List.pairwise_cons] at h
    obtain ⟨ha, hl⟩ := h
    by_cases hd : a.date ≤ e.date
    · simp only [insertDesc, if_pos hd]
      rw [List.pairwise_cons]
      refine ⟨?_, List.pairwise_cons.mpr ⟨ha, hl⟩⟩
      intro b hb
      rcases List.mem_cons.mp hb with rfl | hb
      · exact hd
      · exact (ha b hb).trans hd
    · simp only [insertDesc, if_neg hd]
      rw [List.pairwise_cons]
      refine ⟨?_, insertDesc_sorted e l hl⟩
      intro b hb
      rcases mem_insertDesc.mp hb with rfl | hb
      · exact le_of_not_le hd
      · exact ha b hb

theorem sortDesc_sorted :
    ∀ l : List HistoryEntry, (sortDesc l).Pairwise (fun a b => b.date ≤ a.date)
  | [] => by simp [sortDesc]
  | a :: l => insertDesc_sorted a (sortDesc l) (sortDesc_sorted l)

end AttendanceSys

namespace AttendanceSys

/-! ### Unfolding lemmas -/

theorem getAttendancePercentage_snd (cfg : Config) (sid : Nat) (days today : Int)
    (ledger : List AttendanceRow) :
    (getAttendancePercentage cfg sid days today ledger).2 =
      ledger ++ (if ((ledger.filter (selWindow sid
            (today - (effDays cfg days - 1)) today)).length == 0)
        then missingDays sid (today - (effDays cfg days - 1)) (effDays cfg days)
        else []) := rfl

theorem getAttendancePercentage_total (cfg : Config) (sid : Nat) (days today : Int)
    (ledger : List AttendanceRow) :
    (getAttendancePercentage cfg sid days today ledger).1.total_days =
      (if ((ledger.filter (selWindow sid
            (today - (effDays cfg days - 1)) today)).length == 0)
        then (if ((ledger.filter (selWindow sid
              (today - (effDays cfg days - 1)) today)).length == 0)
          then missingDays sid (today - (effDays cfg days - 1)) (effDays cfg days)
          else []).length
        else (ledger.filter (selWindow sid
            (today - (effDays cfg days - 1)) today)).length) := rfl

theorem getAttendanceHistory_mem (sid : Nat) (days today : Int)
    (ledger : List AttendanceRow) :
    ∀ e ∈ getAttendanceHistory sid days today ledger,
      (today - (days - 1) ≤ e.date ∧ e.date ≤ today) ∨ e = ⟨today, false, none⟩ := by
  intro e he
  have hdef : getAttendanceHistory sid days today ledger =
      (if ((ledger.filter (selWindow sid (today - (days - 1)) today)).map
          (fun r => HistoryEntry.mk r.date r.logged_in r.login_time)).isEmpty
       then [(⟨today, false, none⟩ : HistoryEntry)]
       else sortDesc ((ledger.filter (selWindow sid (today - (days - 1)) today)).map
          (fun r => HistoryEntry.mk r.date r.logged_in r.login_time))) := rfl
  rw [hdef] at he
  split at he
  · right
    simpa using he
  · left
    have hmem := (sortDesc_perm _).mem_iff.mp he
    simp only [List.mem_map, List.mem_filter] at hmem
    obtain ⟨r, ⟨hrl, hrw⟩, heq⟩ := hmem
    simp only [selWindow, inWindow, Bool.and_eq_true, decide_eq_true_eq] at hrw
    rw [← heq]
    exact ⟨hrw.2.1, hrw.2.2⟩

/-! ### Claim theorems -/

/-- Claim C10: a call to `get_attendance_percentage` with `days = 30`
(the default) actually uses the configured `ATTENDANCE_PERIOD_DAYS` as the
window length instead of 30; any other explicitly passed value is used as
given; and `get_attendance_history` never applies this substitution (its
entries with `days = 30` always lie in the literal 30-day window). -/
theorem percentage_period_substitution (cfg : Config) (sid : Nat) (today : Int)
    (ledger : List AttendanceRow) :
    ((getAttendancePercentage cfg sid 30 today ledger).1.start_date =
        today - (cfg.attendancePeriodDays - 1))
    ∧ (∀ days : Int, days ≠ 30 →
        (getAttendancePercentage cfg sid days today ledger).1.start_date =
          today - (days - 1))
    ∧ (∀ e ∈ getAttendanceHistory sid 30 today ledger,
        today - 29 ≤ e.date ∧ e.date ≤ today) := by
  refine ⟨rfl, ?_, ?_⟩
  · intro days h
    have heff : effDays cfg days = days := by
      simp only [effDays, beq_iff_eq, if_neg h]
    have hsd : (getAttendancePercentage cfg sid days today ledger).1.start_date =
        today - (effDays cfg days - 1) := rfl
    rw [hsd, heff]
  · intro e he
    rcases getAttendanceHistory_mem sid 30 today ledger e he with ⟨h1, h2⟩ | rfl
    · constructor <;> omega
    · refine ⟨?_, ?_⟩
      · show today - 29 ≤ today
        omega
      · show today ≤ today
        omega

/-- Witness for C10 at concrete inputs: with `ATTENDANCE_PERIOD_DAYS = 45`, an
explicit `days = 30` yields a 45-day window; `days = 7` is used as given;
and the single history entry for an empty ledger lies in the 30-day
window. -/
theorem percentage_period_substitution_witness :
    (getAttendancePercentage ⟨75, 45, 24⟩ 1 30 0 []).1.start_date = 0 - (45 - 1)
    ∧ (getAttendancePercentage ⟨75, 45, 24⟩ 1 7 0 []).1.start_date = 0 - (7 - 1)
    ∧ ((0 : Int) - 29 ≤ 0 ∧ (0 : Int) ≤ 0) :=
  ⟨(percentage_period_substitution ⟨75, 45, 24⟩ 1 0 []).1,
   (percentage_period_substitution ⟨75, 45, 24⟩ 1 0 []).2.1 7 (by decide),
   (percentage_period_substitution ⟨75, 45, 24⟩ 1 0 []).2.2 ⟨0, false, none⟩
     (by rw [show getAttendanceHistory 1 30 0 [] = [⟨0, false, none⟩] from rfl]
         exact List.mem_singleton.mpr rfl)⟩

/-- Counterexample to claim C5 as stated: configure the session lifetime to
1 hour; the session created at time 0 still expires at 24, not at
`0 + SESSION_LIFETIME = 1`, because `Session.create` hard-codes
`timedelta(hours=24)` and never reads the config. -/
theorem session_lifetime_counterexample :
    ((sessionCreate ⟨75, 30, 1⟩ 1 "tok" 0 []).2.map SessionRow.expires_at = [24])
    ∧ ¬((sessionCreate ⟨75, 30, 1⟩ 1 "tok" 0 []).2.map SessionRow.expires_at =
        [0 + (⟨75, 30, 1⟩ : Config).sessionLifetime]) := by
  refine ⟨rfl, ?_⟩
  intro h
  rw [show (sessionCreate ⟨75, 30, 1⟩ 1 "tok" 0 []).2.map SessionRow.expires_at
      = [24] from rfl] at h
  simp at h

/-- Claim C5 amended: `Session.create` persists exactly one new row whose
expiry is creation time plus a hard-coded 24 hours, for every configuration
— so changing `SESSION_LIFETIME` does *not* change the expiry of
subsequently created sessions; the two agree only because the default value
happens to be 24. -/
theorem session_create_expiry (cfg : Config) (sid : Nat) (token : String)
    (now : Int) (sessions : List SessionRow) :
    (sessionCreate cfg sid token now sessions).2 =
      sessions ++ [⟨sid, token, now, now + 24⟩]
    ∧ (sessionCreate cfg sid token now sessions).1 = token
    ∧ (sessionCreate defaultConfig sid token now sessions).2 =
      sessions ++ [⟨sid, token, now, now + defaultConfig.sessionLifetime⟩] :=
  ⟨rfl, rfl, rfl⟩

/-- Claim C8: registering a username or email that already exists returns
`false` and leaves the store unchanged (the storage `IntegrityError` is
caught, never propagated — the operation is total); a fresh username and
email insert the identity and return `true`. -/
theorem student_create_unique (store : List StudentRow) (u p n e : String) :
    ((∃ r ∈ store, r.username = u ∨ r.email = e) →
        studentCreate store u p n e = (false, store))
    ∧ ((∀ r ∈ store, r.username ≠ u ∧ r.email ≠ e) →
        studentCreate store u p n e = (true, store ++ [⟨u, p, n, e⟩])) := by
  constructor
  · rintro ⟨r, hr, hcase⟩
    have hany : store.any (fun r => r.username == u || r.email == e) = true := by
      rw [List.any_eq_true]
      refine ⟨r, hr, ?_⟩
      rcases hcase with h | h <;> simp [h]
    simp [studentCreate, hany]
  · intro h
    have hany : store.any (fun r => r.username == u || r.email == e) = false := by
      rw [List.any_eq_false]
      intro r hr
      have := h r hr
      simp [this.1, this.2]
    simp [studentCreate, hany]

/-- Witness for C8: a duplicate username is rejected without mutation; a
fresh identity is inserted. -/
theorem student_create_unique_witness :
    studentCreate [⟨"al", "h", "Al", "a@x"⟩] "al" "h2" "Al2" "b@x" =
      (false, [⟨"al", "h", "Al", "a@x"⟩])
    ∧ studentCreate [] "al" "h" "Al" "a@x" = (true, [⟨"al", "h", "Al", "a@x"⟩]) :=
  ⟨(student_create_unique [⟨"al", "h", "Al", "a@x"⟩] "al" "h2" "Al2" "b@x").1
      ⟨⟨"al", "h", "Al", "a@x"⟩, List.mem_singleton.mpr rfl, Or.inl rfl⟩,
   (student_create_unique [] "al" "h" "Al" "a@x").2 (by simp)⟩

end AttendanceSys

namespace AttendanceSys

theorem find?_append_none {α : Type} {p : α → Bool} :
    ∀ {l1 : List α} (l2 : List α), l1.find? p = none →
      (l1 ++ l2).find? p = l2.find? p
  | [], l2, _ => rfl
  | a :: l1, l2, h => by
    have hpa : p a = false := by
      cases hx : p a with
      | false => rfl
      | true => rw [List.find?_cons_of_pos _ hx] at h; exact absurd h (by simp)
    rw [List.cons_append, List.find?_cons_of_neg _ (by simp [hpa]),
      find?_append_none l2 (by rwa [List.find?_cons_of_neg _ (by simp [hpa])] at h)]

/-- Claim C7: `Session.validate` is a pure read (the sessions table is
unchanged); it returns `None` for an unknown token and for a token all of
whose rows have expired; it returns the associated user when a row for the
token exists with expiry strictly in the future (the row being unique for
that token, as tokens are); and a freshly created token validates
immediately, since its expiry `now + 24` is in the future. -/
theorem session_validate_spec (sessions : List SessionRow) (t : String) (now : Int) :
    ((sessionValidate sessions t now).2 = sessions)
    ∧ ((∀ r ∈ sessions, r.session_token ≠ t) →
        (sessionValidate sessions t now).1 = none)
    ∧ ((∀ r ∈ sessions, r.session_token = t → r.expires_at ≤ now) →
        (sessionValidate sessions t now).1 = none)
    ∧ (∀ r ∈ sessions, r.session_token = t → now < r.expires_at →
        (∀ r2 ∈ sessions, r2.session_token = t → r2 = r) →
        (sessionValidate sessions t now).1 = some r.student_id)
    ∧ (∀ (cfg : Config) (sid : Nat),
        (∀ r ∈ sessions, r.session_token ≠ t) →
        (sessionValidate (sessionCreate cfg sid t now sessions).2 t now).1 = some sid) := by
  refine ⟨rfl, ?_, ?_, ?_, ?_⟩
  · intro h
    have hnone : sessions.find? (fun r => r.session_token == t && now < r.expires_at)
        = none := by
      rw [List.find?_eq_none]
      intro x hx
      simp [h x hx]
    simp [sessionValidate, hnone]
  · intro h
    have hnone : sessions.find? (fun r => r.session_token == t && now < r.expires_at)
        = none := by
      rw [List.find?_eq_none]
      intro x hx
      by_cases ht : x.session_token = t
      · have hexp := h x hx ht
        simp [ht]
        omega
      · simp [ht]
    simp [sessionValidate, hnone]
  · intro r hr ht hexp huniq
    cases hfind : sessions.find? (fun r => r.session_token == t && now < r.expires_at) with
    | none =>
      exfalso
      have := List.find?_eq_none.mp hfind r hr
      simp [ht, hexp] at this
    | some r2 =>
      have hm := List.mem_of_find?_eq_some hfind
      have hp := List.find?_some hfind
      simp only [Bool.and_eq_true, beq_iff_eq] at hp
      have : r2 = r := huniq r2 hm hp.1
      subst this
      simp [sessionValidate, hfind]
  · intro cfg sid hfresh
    have hcreate : (sessionCreate cfg sid t now sessions).2 =
        sessions ++ [⟨sid, t, now, now + 24⟩] := rfl
    have hnone : sessions.find? (fun r => r.session_token == t && now < r.expires_at)
        = none := by
      rw [List.find?_eq_none]
      intro x hx
      simp [hfresh x hx]
    have hrow : ((fun (r : SessionRow) => r.session_token == t && now < r.expires_at)
        (⟨sid, t, now, now + 24⟩ : SessionRow)) = true := by
      simp
    have hfind : (sessions ++ ([⟨sid, t, now, now + 24⟩] : List SessionRow)).find?
        (fun r => r.session_token == t && now < r.expires_at) =
        some ⟨sid, t, now, now + 24⟩ := by
      rw [find?_append_none _ hnone]
      exact List.find?_cons_of_pos _ hrow
    simp [sessionValidate, hcreate, hfind]

/-- Witness for C7: a live token validates to its user, an unknown token and
an expired token validate to `None`. -/
theorem session_validate_witness :
    (sessionValidate [⟨7, "a", 0, 24⟩] "a" 0).1 = some 7
    ∧ (sessionValidate [⟨7, "a", 0, 24⟩] "b" 0).1 = none
    ∧ (sessionValidate [⟨7, "a", 0, 24⟩] "a" 30).1 = none :=
  ⟨(session_validate_spec [⟨7, "a", 0, 24⟩] "a" 0).2.2.2.1 ⟨7, "a", 0, 24⟩
      (List.mem_singleton.mpr rfl) rfl (by decide)
      (by intro r2 h2 _
          rwa [List.mem_singleton] at h2),
   (session_validate_spec [⟨7, "a", 0, 24⟩] "b" 0).2.1
      (by intro r hr
          rw [List.mem_singleton] at hr
          subst hr
          decide),
   (session_validate_spec [⟨7, "a", 0, 24⟩] "a" 30).2.2.1
      (by intro r hr _
          rw [List.mem_singleton] at hr
          subst hr
          decide)⟩

/-- Claim C3: under the `UNIQUE (student_id, date)` invariant (at most one
row per user and day), any nonempty sequence of `mark_attendance` calls on
one day leaves exactly one row for that `(user, date)` — present, with the
timestamp of the latest call.  The initial ledger may already hold a row
for the day, e.g. an absent one created by backfill. -/
theorem mark_attendance_single_row (sid : Nat) (d : Int)
    (ledger : List AttendanceRow) (t : Int) (ts : List Int)
    (huniq : ledger.countP (rowMatches sid d) ≤ 1) :
    (markMany sid d (t :: ts) ledger).filter (rowMatches sid d) =
      [⟨sid, d, true, some (ts.getLastD t)⟩] := by
  have hstep := filter_markAttendance sid d t ledger huniq
  have hfold : markMany sid d (t :: ts) ledger =
      markMany sid d ts (markAttendance sid d t ledger) := rfl
  rw [hfold]
  exact markMany_filter sid d ts _ t hstep

/-- Witness for C3: two logins on day 0 over a backfilled absent row leave a
single present row carrying the second timestamp. -/
theorem mark_attendance_single_row_witness :
    (markMany 1 0 [5, 9] [⟨1, 0, false, none⟩]).filter (rowMatches 1 0) =
      [⟨1, 0, true, some 9⟩] :=
  mark_attendance_single_row 1 0 [⟨1, 0, false, none⟩] 5 [9] (by decide)

/-- Claim C9: once the record of a `(user, day)` is present, no ledger
operation — another `mark_attendance` for any user/day, a
`get_attendance_percentage` with its backfill, or a
`get_attendance_history` — ever reverts it to absent. -/
theorem present_never_reverts (op : LedgerOp) (ledger : List AttendanceRow)
    (sid : Nat) (d : Int) (h : isPresent ledger sid d = true) :
    isPresent (applyOp op ledger) sid d = true := by
  cases op with
  | mark sid2 today now => exact isPresent_markAttendance sid2 today now sid d ledger h
  | percentage cfg sid2 days today =>
    show isPresent (getAttendancePercentage cfg sid2 days today ledger).2 sid d = true
    rw [getAttendancePercentage_snd]
    exact isPresent_append_left h
  | history _ _ _ => exact h

/-- Witness for C9: a present row for day 0 survives a percentage query that
backfills the rest of the window for another user. -/
theorem present_never_reverts_witness :
    isPresent (applyOp (.percentage defaultConfig 2 7 0) [⟨1, 0, true, some 3⟩]) 1 0
      = true :=
  present_never_reverts (.percentage defaultConfig 2 7 0) [⟨1, 0, true, some 3⟩] 1 0
    (by decide)

/-- Projection of `get_attendance_percentage`: the present-day count. -/
theorem getAttendancePercentage_present (cfg : Config) (sid : Nat) (days today : Int)
    (ledger : List AttendanceRow) :
    (getAttendancePercentage cfg sid days today ledger).1.present_days =
      ((ledger ++ (if ((ledger.filter (selWindow sid
            (today - (effDays cfg days - 1)) today)).length == 0)
          then missingDays sid (today - (effDays cfg days - 1)) (effDays cfg days)
          else [])).filter
        (fun r => selWindow sid (today - (effDays cfg days - 1)) today r
          && r.logged_in)).length := rfl

/-- Projection of `get_attendance_percentage`: the rounded ratio, or 0 when
the denominator is 0. -/
theorem getAttendancePercentage_perc (cfg : Config) (sid : Nat) (days today : Int)
    (ledger : List AttendanceRow) :
    (getAttendancePercentage cfg sid days today ledger).1.percentage =
      (if 0 < (getAttendancePercentage cfg sid days today ledger).1.total_days
        then round2
          (((getAttendancePercentage cfg sid days today ledger).1.present_days : ℚ) /
            ((getAttendancePercentage cfg sid days today ledger).1.total_days : ℚ) * 100)
        else 0) := rfl

/-- Counterexample to claim C4 as stated: on Wednesday day 2 (weekday 2),
`mark_attendance` then `get_attendance_percentage(days=7)` on an initially
empty ledger yields percentage 100, not 20: the freshly marked row makes
the window non-empty, so no weekday backfill occurs and the ratio is 1/1. -/
theorem mark_then_percentage_counterexample :
    (getAttendancePercentage defaultConfig 1 7 2 (markAttendance 1 2 9 [])).1.present_days = 1
    ∧ (getAttendancePercentage defaultConfig 1 7 2 (markAttendance 1 2 9 [])).1.percentage = 100
    ∧ ¬((getAttendancePercentage defaultConfig 1 7 2 (markAttendance 1 2 9 [])).1.percentage
        = 20) := by
  have h1 : (getAttendancePercentage defaultConfig 1 7 2
      (markAttendance 1 2 9 [])).1.present_days = 1 := rfl
  have h2 : (getAttendancePercentage defaultConfig 1 7 2
      (markAttendance 1 2 9 [])).1.total_days = 1 := rfl
  have hp := getAttendancePercentage_perc defaultConfig 1 7 2 (markAttendance 1 2 9 [])
  rw [h1, h2, if_pos (by norm_num)] at hp
  unfold round2 at hp
  rw [show (((1 : Nat) : ℚ) / ((1 : Nat) : ℚ) * 100) * 100 = ((10000 : ℤ) : ℚ)
    by norm_num, round_intCast] at hp
  norm_num at hp
  refine ⟨h1, hp, ?_⟩
  rw [hp]
  norm_num

/-- Claim C4 amended: `mark_present(alice)` then `percentage(alice, 7)` on a
fresh ledger yields present_days = 1, total_days = 1 and percentage = 100.0
(for any day, Wednesday included) — the marked row suppresses the backfill,
so the denominator is 1, not the weekday count 5. -/
theorem mark_then_percentage_amended (sid : Nat) (today now : Int) :
    (getAttendancePercentage defaultConfig sid 7 today
        (markAttendance sid today now [])).1.present_days = 1
    ∧ (getAttendancePercentage defaultConfig sid 7 today
        (markAttendance sid today now [])).1.total_days = 1
    ∧ (getAttendancePercentage defaultConfig sid 7 today
        (markAttendance sid today now [])).1.percentage = 100 := by
  have heff : effDays defaultConfig 7 = 7 := rfl
  have hml : markAttendance sid today now [] = [⟨sid, today, true, some now⟩] := rfl
  have hsel : selWindow sid (today - (7 - 1)) today ⟨sid, today, true, some now⟩ = true := by
    simp only [selWindow, inWindow, Bool.and_eq_true, beq_iff_eq, decide_eq_true_eq]
    refine ⟨?_, by omega, by omega⟩
    simp
  have hfil : List.filter (selWindow sid (today - (7 - 1)) today)
      [(⟨sid, today, true, some now⟩ : AttendanceRow)] =
      [⟨sid, today, true, some now⟩] := by
    rw [List.filter_cons_of_pos hsel]
    rfl
  have hc : ((List.filter (selWindow sid (today - (7 - 1)) today)
      [(⟨sid, today, true, some now⟩ : AttendanceRow)]).length == 0) = false := by
    rw [hfil]
    rfl
  have hpres : (getAttendancePercentage defaultConfig sid 7 today
      (markAttendance sid today now [])).1.present_days = 1 := by
    have hrowp : ((fun (r : AttendanceRow) =>
        selWindow sid (today - (7 - 1)) today r && r.logged_in)
        (⟨sid, today, true, some now⟩ : AttendanceRow)) = true := by
      show (selWindow sid (today - (7 - 1)) today
        ⟨sid, today, true, some now⟩ && true) = true
      rw [hsel]
      rfl
    rw [getAttendancePercentage_present, heff, hml, hc, if_neg Bool.false_ne_true,
      List.append_nil,
      @List.filter_cons_of_pos AttendanceRow
        (fun r => selWindow sid (today - (7 - 1)) today r && r.logged_in)
        (⟨sid, today, true, some now⟩ : AttendanceRow) [] hrowp]
    rfl
  have htot : (getAttendancePercentage defaultConfig sid 7 today
      (markAttendance sid today now [])).1.total_days = 1 := by
    rw [getAttendancePercentage_total, heff, hml, hc, if_neg Bool.false_ne_true, hfil]
    rfl
  have hp := getAttendancePercentage_perc defaultConfig sid 7 today
    (markAttendance sid today now [])
  rw [hpres, htot, if_pos (by norm_num)] at hp
  unfold round2 at hp
  rw [show (((1 : Nat) : ℚ) / ((1 : Nat) : ℚ) * 100) * 100 = ((10000 : ℤ) : ℚ)
    by norm_num, round_intCast] at hp
  norm_num at hp
  exact ⟨hpres, htot, hp⟩

end AttendanceSys

namespace AttendanceSys

/-- Claim C1: when no record exists for the user in the (effective) window,
`get_attendance_percentage` appends and persists exactly one absent record
(`logged_in = 0`, no login time) per weekday of the window up to and
including today — one per date, never a Saturday or Sunday; when at least
one record exists, the ledger is unchanged. -/
theorem percentage_backfill (cfg : Config) (sid : Nat) (days today : Int)
    (ledger : List AttendanceRow) :
    ((ledger.filter (selWindow sid (today - (effDays cfg days - 1)) today)).length = 0 →
        (getAttendancePercentage cfg sid days today ledger).2 =
          ledger ++ missingDays sid (today - (effDays cfg days - 1)) (effDays cfg days)
        ∧ (∀ d : Int,
            ((⟨sid, d, false, none⟩ : AttendanceRow) ∈
                missingDays sid (today - (effDays cfg days - 1)) (effDays cfg days)) ↔
              (today - (effDays cfg days - 1) ≤ d ∧ d ≤ today ∧ isWeekday d = true))
        ∧ (∀ r ∈ missingDays sid (today - (effDays cfg days - 1)) (effDays cfg days),
            r.student_id = sid ∧ r.logged_in = false ∧ r.login_time = none ∧
              isWeekday r.date = true)
        ∧ ((missingDays sid (today - (effDays cfg days - 1)) (effDays cfg days)).map
            AttendanceRow.date).Nodup)
    ∧ ((ledger.filter (selWindow sid (today - (effDays cfg days - 1)) today)).length ≠ 0 →
        (getAttendancePercentage cfg sid days today ledger).2 = ledger) := by
  constructor
  · intro h0
    refine ⟨?_, ?_, ?_, missingDays_dates_nodup _ _ _⟩
    · rw [getAttendancePercentage_snd, h0]
      rfl
    · intro d
      rw [mem_missingDays]
      constructor
      · rintro ⟨d2, hb1, hb2, hw, heq⟩
        have hd : d = d2 := by
          have := congrArg AttendanceRow.date heq
          simpa using this
        subst hd
        exact ⟨hb1, by omega, hw⟩
      · rintro ⟨hb1, hb2, hw⟩
        exact ⟨d, hb1, by omega, hw, rfl⟩
    · intro r hr
      obtain ⟨hsel, hli, hlt, hw⟩ := missingDays_sel hr
      refine ⟨?_, hli, hlt, hw⟩
      simp only [selWindow, Bool.and_eq_true, beq_iff_eq] at hsel
      exact hsel.1
  · intro h0
    rw [getAttendancePercentage_snd]
    have hb : ((ledger.filter (selWindow sid (today - (effDays cfg days - 1)) today)).length
        == 0) = false := beq_eq_false_iff_ne.mpr h0
    rw [hb, if_neg Bool.false_ne_true, List.append_nil]

/-- Witness for C1: an empty ledger gets the weekday backfill appended; a
ledger that already has a record in the window is left unchanged. -/
theorem percentage_backfill_witness :
    (getAttendancePercentage defaultConfig 1 7 2 []).2 =
      [] ++ missingDays 1 (2 - (effDays defaultConfig 7 - 1)) (effDays defaultConfig 7)
    ∧ (getAttendancePercentage defaultConfig 1 7 2
        [⟨1, 2, true, some 9⟩]).2 = [⟨1, 2, true, some 9⟩] :=
  ⟨((percentage_backfill defaultConfig 1 7 2 []).1 rfl).1,
   (percentage_backfill defaultConfig 1 7 2 [⟨1, 2, true, some 9⟩]).2 (by decide)⟩

/-- Counterexample to claim C2 as stated: with `ATTENDANCE_PERIOD_DAYS = 45`,
calling `get_attendance_percentage` with an explicit `window_days = 30`
gives `start_date = today - 44`, not `today - (30 - 1)`: the days = 30
substitution (claim C10) breaks the literal window formula. -/
theorem percentage_window_counterexample :
    (getAttendancePercentage ⟨75, 45, 24⟩ 1 30 0 []).1.start_date = -44
    ∧ ¬((getAttendancePercentage ⟨75, 45, 24⟩ 1 30 0 []).1.start_date = 0 - (30 - 1)) := by
  have h : (getAttendancePercentage ⟨75, 45, 24⟩ 1 30 0 []).1.start_date = -44 := rfl
  refine ⟨h, ?_⟩
  rw [h]
  decide

/-- Claim C2 amended: the result of `get_attendance_percentage` has
`end_date = today`, `start_date = today - (eff - 1)` where `eff` is the
*effective* window length (`ATTENDANCE_PERIOD_DAYS` when the passed
`window_days` is 30, else `window_days` itself); `total_days` counts the
records in that window after any backfill, `present_days` those with
`logged_in = 1`, and `percentage` is the ratio ×100 rounded to 2 decimals,
or 0 when `total_days` is 0. -/
theorem percentage_result_fields (cfg : Config) (sid : Nat) (days today : Int)
    (ledger : List AttendanceRow) :
    ((getAttendancePercentage cfg sid days today ledger).1.end_date = today)
    ∧ ((getAttendancePercentage cfg sid days today ledger).1.start_date =
        today - (effDays cfg days - 1))
    ∧ ((getAttendancePercentage cfg sid days today ledger).1.total_days =
        ((getAttendancePercentage cfg sid days today ledger).2.filter
          (selWindow sid (today - (effDays cfg days - 1)) today)).length)
    ∧ ((getAttendancePercentage cfg sid days today ledger).1.present_days =
        ((getAttendancePercentage cfg sid days today ledger).2.filter
          (fun r => selWindow sid (today - (effDays cfg days - 1)) today r
            && r.logged_in)).length)
    ∧ ((getAttendancePercentage cfg sid days today ledger).1.percentage =
        (if 0 < (getAttendancePercentage cfg sid days today ledger).1.total_days
          then round2
            (((getAttendancePercentage cfg sid days today ledger).1.present_days : ℚ) /
              ((getAttendancePercentage cfg sid days today ledger).1.total_days : ℚ) * 100)
          else 0)) := by
  refine ⟨rfl, rfl, ?_, rfl, rfl⟩
  rw [getAttendancePercentage_total, getAttendancePercentage_snd]
  cases hb : ((ledger.filter (selWindow sid (today - (effDays cfg days - 1)) today)).length
      == 0) with
  | true =>
    have h0 : (ledger.filter (selWindow sid (today - (effDays cfg days - 1)) today)).length
        = 0 := by simpa using hb
    simp only [hb, eq_self_iff_true, if_true]
    rw [List.filter_append, List.length_eq_zero.mp h0, List.nil_append]
    rw [List.filter_eq_self.mpr ?_]
    intro r hr
    have hsel := (missingDays_sel hr).1
    nth_rewrite 2 [show today = today - (effDays cfg days - 1) + effDays cfg days - 1
      by ring]
    exact hsel
  | false =>
    simp only [hb, Bool.false_eq_true, if_false, List.append_nil]

/-- Claim C6: `get_attendance_history` returns exactly the user's records in
the window `[today-(days-1), today]`, sorted by date descending; when the
selection is empty it returns the single placeholder for today (absent, no
timestamp), so the result is never empty. -/
theorem history_sorted_nonempty (sid : Nat) (days today : Int)
    (ledger : List AttendanceRow) :
    (((ledger.filter (selWindow sid (today - (days - 1)) today)).map
        (fun r => HistoryEntry.mk r.date r.logged_in r.login_time)) = [] →
      getAttendanceHistory sid days today ledger = [⟨today, false, none⟩])
    ∧ (((ledger.filter (selWindow sid (today - (days - 1)) today)).map
        (fun r => HistoryEntry.mk r.date r.logged_in r.login_time)) ≠ [] →
      List.Perm (getAttendanceHistory sid days today ledger)
        ((ledger.filter (selWindow sid (today - (days - 1)) today)).map
          (fun r => HistoryEntry.mk r.date r.logged_in r.login_time))
      ∧ (getAttendanceHistory sid days today ledger).Pairwise
          (fun a b => b.date ≤ a.date))
    ∧ getAttendanceHistory sid days today ledger ≠ [] := by
  have hdef : getAttendanceHistory sid days today ledger =
      (if ((ledger.filter (selWindow sid (today - (days - 1)) today)).map
          (fun r => HistoryEntry.mk r.date r.logged_in r.login_time)).isEmpty
       then [(⟨today, false, none⟩ : HistoryEntry)]
       else sortDesc ((ledger.filter (selWindow sid (today - (days - 1)) today)).map
          (fun r => HistoryEntry.mk r.date r.logged_in r.login_time))) := rfl
  by_cases h : ((ledger.filter (selWindow sid (today - (days - 1)) today)).map
      (fun r => HistoryEntry.mk r.date r.logged_in r.login_time)) = []
  · rw [hdef, h]
    exact ⟨fun _ => rfl, fun hne => absurd rfl hne, by simp⟩
  · have hie : ((ledger.filter (selWindow sid (today - (days - 1)) today)).map
        (fun r => HistoryEntry.mk r.date r.logged_in r.login_time)).isEmpty = false := by
      cases hx : ((ledger.filter (selWindow sid (today - (days - 1)) today)).map
          (fun r => HistoryEntry.mk r.date r.logged_in r.login_time)).isEmpty with
      | false => rfl
      | true => exact absurd (List.isEmpty_iff.mp hx) h
    rw [hdef, hie, if_neg Bool.false_ne_true]
    refine ⟨fun he => absurd he h, fun _ => ⟨sortDesc_perm _, sortDesc_sorted _⟩, ?_⟩
    intro hnil
    apply h
    have hlen := (sortDesc_perm ((ledger.filter (selWindow sid (today - (days - 1)) today)).map
        (fun r => HistoryEntry.mk r.date r.logged_in r.login_time))).length_eq
    rw [hnil] at hlen
    exact List.length_eq_zero.mp hlen.symm

/-- Witness for C6: an empty ledger yields exactly the placeholder entry for
today; a one-row ledger yields a sorted history; the result is never
empty. -/
theorem history_sorted_nonempty_witness :
    getAttendanceHistory 1 7 0 [] = [⟨0, false, none⟩]
    ∧ (getAttendanceHistory 1 7 0 [⟨1, 0, true, some 8⟩]).Pairwise
        (fun a b => b.date ≤ a.date)
    ∧ getAttendanceHistory 1 7 0 [] ≠ [] :=
  ⟨(history_sorted_nonempty 1 7 0 []).1 rfl,
   ((history_sorted_nonempty 1 7 0 [⟨1, 0, true, some 8⟩]).2.1 (by decide)).2,
   (history_sorted_nonempty 1 7 0 []).2.2⟩

end AttendanceSys
